import Mathlib

/-!
Verification of the media-file date renamer.

The source is a single Python file whose operations are:
  get_file_creation_date  (timestamp chain + min with mtime),
  is_media_file           (lower-cased suffix membership in a fixed catalog),
  already_has_date_prefix (match of the leading yyyy-mm-dd pattern),
  rename_media_files      (the batch loop over the directory listing).

We embed them shallowly: timestamps are integers (seconds), a directory
is a list of entries, `os.stat` failure is an `Option` stat field on the
entry, and `os.rename` failure is a boolean flag on the entry.  Console
output is modelled as a list of abstract messages.
-/

/-- File-system metadata returned by a successful `os.stat` call.
`st_birthtime` and `st_ctime` are optional, mirroring the `hasattr`
checks in the source; `st_mtime` is always present. -/
structure FileStat where
  st_birthtime : Option Int
  st_ctime : Option Int
  st_mtime : Int
deriving Repr, DecidableEq

/-- The creation-like timestamp chosen by the source's fallback chain:
birth time if available, else the change/creation time field, else the
modification time. -/
def creation_time_of (s : FileStat) : Int :=
  match s.st_birthtime with
  | some b => b
  | none =>
    match s.st_ctime with
    | some c => c
    | none => s.st_mtime

/-- Embedding of `get_file_creation_date`: `none` models the `except`
branch (the `os.stat` call raised).  On success the source takes the
minimum of the chain value and the modification time. -/
def get_file_creation_date (stat : Option FileStat) : Option Int :=
  match stat with
  | none => none
  | some s =>
    let creation_time := creation_time_of s
    let modification_time := s.st_mtime
    some (min creation_time modification_time)

/-- Index of the last occurrence of a dot in a character list, if any. -/
def lastDotIndex : List Char → Option Nat
  | [] => none
  | c :: cs =>
    match lastDotIndex cs with
    | some i => some (i + 1)
    | none => if c = '.' then some 0 else none

/-- Embedding of `pathlib.Path(name).suffix` for a plain file name: the
substring from the last dot on, provided that dot is neither the first
nor the last character; otherwise the empty string. -/
def pySuffix (name : String) : String :=
  let cs := name.toList
  match lastDotIndex cs with
  | some i => if 0 < i ∧ i < cs.length - 1 then String.mk (cs.drop i) else ""
  | none => ""

/-- ASCII lower-casing of a string, as `str.lower` acts on the
extensions involved here. -/
def strLower (s : String) : String :=
  String.mk (s.toList.map Char.toLower)

/-- The fixed extension catalog from the source, photo formats then
video formats, in source order. -/
def media_extensions : List String :=
  [".jpg", ".jpeg", ".png", ".gif", ".bmp", ".tiff", ".tif",
   ".webp", ".svg", ".raw", ".cr2", ".nef", ".arw", ".dng",
   ".mp4", ".avi", ".mov", ".wmv", ".flv", ".webm", ".mkv",
   ".m4v", ".3gp", ".mpg", ".mpeg", ".m2v", ".mts"]

/-- Embedding of `is_media_file`: lower-case the suffix and test
membership in the catalog. -/
def is_media_file (file_path : String) : Bool :=
  decide (strLower (pySuffix file_path) ∈ media_extensions)

/-- Embedding of the regex test `re.match(r'^\d{4}-\d{2}-\d{2}\s+', filename)`:
four digits, hyphen, two digits, hyphen, two digits, then at least one
whitespace character, anchored at the start. -/
def already_has_date_prefix (filename : String) : Bool :=
  match filename.toList with
  | d1 :: d2 :: d3 :: d4 :: '-' :: m1 :: m2 :: '-' :: a1 :: a2 :: w :: _ =>
    d1.isDigit && d2.isDigit && d3.isDigit && d4.isDigit &&
    m1.isDigit && m2.isDigit && a1.isDigit && a2.isDigit && w.isWhitespace
  | _ => false

/-- Civil calendar date (year, month, day) from a count of days since
1970-01-01, the standard era-based conversion used to model
`datetime.fromtimestamp(...)` at day granularity. -/
def civilFromDays (z0 : Int) : Int × Int × Int :=
  let z := z0 + 719468
  let era : Int := z.fdiv 146097
  let doe : Int := z - era * 146097
  let yoe : Int := (doe - doe.fdiv 1460 + doe.fdiv 36524 - doe.fdiv 146096).fdiv 365
  let y : Int := yoe + era * 400
  let doy : Int := doe - (365 * yoe + yoe.fdiv 4 - yoe.fdiv 100)
  let mp : Int := (5 * doy + 2).fdiv 153
  let d : Int := doy - (153 * mp + 2).fdiv 5 + 1
  let m : Int := mp + (if mp < 10 then 3 else -9)
  (y + (if m ≤ 2 then 1 else 0), m, d)

/-- Zero-pad a number to two digits, as `%m` and `%d` do. -/
def pad2 (n : Int) : String :=
  if 0 ≤ n ∧ n < 10 then "0" ++ toString n else toString n

/-- Zero-pad a year to four digits, as `%Y` does. -/
def pad4 (n : Int) : String :=
  if 0 ≤ n ∧ n < 10 then "000" ++ toString n
  else if 0 ≤ n ∧ n < 100 then "00" ++ toString n
  else if 0 ≤ n ∧ n < 1000 then "0" ++ toString n
  else toString n

/-- Embedding of `creation_date.strftime('%Y-%m-%d')` applied to a
timestamp in seconds: truncate to the calendar day and format it. -/
def format_date (t : Int) : String :=
  let ymd := civilFromDays (t.fdiv 86400)
  pad4 ymd.1 ++ "-" ++ pad2 ymd.2.1 ++ "-" ++ pad2 ymd.2.2

example : format_date 0 = "1970-01-01" := by decide
example : already_has_date_prefix "2022-01-01 video.mp4" = true := by decide
example : already_has_date_prefix "video.mp4" = false := by decide
example : is_media_file "Clockwork.MP4" = true := by decide
example : is_media_file "notes.txt" = false := by decide

/-- One directory entry.  `isFile` distinguishes regular files from
other entries (the listing filters on `os.path.isfile`); `stat` is
`none` when `os.stat` on this entry would raise; `renameFails` is true
when `os.rename` on this entry would raise. -/
structure Entry where
  name : String
  isFile : Bool
  stat : Option FileStat
  renameFails : Bool
deriving Repr, DecidableEq

/-- The target of a run: either not a directory at all (the
`os.path.isdir` guard fails) or a directory with its entries. -/
inductive FileSystem where
  | notADir : FileSystem
  | dir : List Entry → FileSystem
deriving Repr, DecidableEq

/-- The counters accumulated by the batch loop. -/
structure RunCounts where
  renamed : Nat
  skipped : Nat
  errors : Nat
deriving Repr, DecidableEq

/-- The observable result of a run: each early-return path of the
source function, or the final summary block with its counts. -/
inductive RunResult where
  | dirNotFound : RunResult
  | noFiles : RunResult
  | noMediaFiles : RunResult
  | summary : Nat → Nat → Nat → Nat → RunResult
deriving Repr, DecidableEq

/-- Abstract console messages, one constructor per `print` shape of the
source. -/
inductive Msg where
  | errorDirMissing : Msg
  | infoNoFiles : Msg
  | infoNoMediaFiles : Msg
  | infoFound : Nat → Msg
  | skipLine : String → Msg
  | errDate : String → Msg
  | errExists : String → String → Msg
  | wouldRename : String → String → Msg
  | renameDone : String → String → Msg
  | errRenameFailed : String → Msg
  | summaryBlock : Bool → Nat → Nat → Nat → Nat → Msg
deriving Repr, DecidableEq

/-- The mutable state threaded through the per-file loop: the live
directory entries, the three counters and the console output so far. -/
structure LoopState where
  entries : List Entry
  counts : RunCounts
  out : List Msg
deriving Repr, DecidableEq

/-- Look up the entry at a given name, as a path lookup on the live
directory. -/
def lookupEntry (es : List Entry) (n : String) : Option Entry :=
  es.find? (fun e => e.name = n)

/-- Whether `os.rename` on the named source would raise: the entry is
gone, or its failure flag is set. -/
def renameRaises (es : List Entry) (n : String) : Bool :=
  match lookupEntry es n with
  | none => true
  | some e => e.renameFails

/-- Perform the rename on the live directory: the entry carrying the
old name now carries the new one. -/
def renameEntry (es : List Entry) (old new : String) : List Entry :=
  es.map (fun e => if e.name = old then { e with name := new } else e)

/-- One iteration of the per-file loop of `rename_media_files`, for the
media file called `filename`: skip on an existing date prefix, error
when no date can be read, error on a target-name collision, report only
under dry run, otherwise attempt the rename. -/
def processOne (dry_run : Bool) (st : LoopState) (filename : String) : LoopState :=
  if already_has_date_prefix filename then
    { st with counts := { st.counts with skipped := st.counts.skipped + 1 },
              out := st.out ++ [Msg.skipLine filename] }
  else
    match get_file_creation_date ((lookupEntry st.entries filename).bind Entry.stat) with
    | none =>
      { st with counts := { st.counts with errors := st.counts.errors + 1 },
                out := st.out ++ [Msg.errDate filename] }
    | some t =>
      let new_filename := format_date t ++ " " ++ filename
      if st.entries.any (fun e => e.name = new_filename) then
        { st with counts := { st.counts with errors := st.counts.errors + 1 },
                  out := st.out ++ [Msg.errExists new_filename filename] }
      else if dry_run then
        { st with out := st.out ++ [Msg.wouldRename filename new_filename] }
      else if renameRaises st.entries filename then
        { st with counts := { st.counts with errors := st.counts.errors + 1 },
                  out := st.out ++ [Msg.errRenameFailed filename] }
      else
        { entries := renameEntry st.entries filename new_filename,
          counts := { st.counts with renamed := st.counts.renamed + 1 },
          out := st.out ++ [Msg.renameDone filename new_filename] }

/-- The regular-file names of a directory, as `os.listdir` filtered by
`os.path.isfile` produces them. -/
def listingOf (entries : List Entry) : List String :=
  (entries.filter Entry.isFile).map Entry.name

/-- Embedding of `rename_media_files`: validate the directory,
enumerate, filter to media files, then fold the per-file loop, ending
with the summary block.  Returns the final file system, the run result
and the console output. -/
def rename_media_files (fs : FileSystem) (dry_run : Bool) :
    FileSystem × RunResult × List Msg :=
  match fs with
  | FileSystem.notADir => (FileSystem.notADir, RunResult.dirNotFound, [Msg.errorDirMissing])
  | FileSystem.dir entries =>
    let files := listingOf entries
    if files.isEmpty then
      (FileSystem.dir entries, RunResult.noFiles, [Msg.infoNoFiles])
    else
      let media_files := files.filter is_media_file
      if media_files.isEmpty then
        (FileSystem.dir entries, RunResult.noMediaFiles, [Msg.infoNoMediaFiles])
      else
        let st0 : LoopState := ⟨entries, ⟨0, 0, 0⟩, [Msg.infoFound media_files.length]⟩
        let stF := media_files.foldl (processOne dry_run) st0
        (FileSystem.dir stF.entries,
         RunResult.summary media_files.length stF.counts.renamed
           stF.counts.skipped stF.counts.errors,
         stF.out ++ [Msg.summaryBlock dry_run media_files.length
           stF.counts.renamed stF.counts.skipped stF.counts.errors])

/-- The entries of a file system, empty when it is not a directory. -/
def dirEntries (fs : FileSystem) : List Entry :=
  match fs with
  | FileSystem.notADir => []
  | FileSystem.dir entries => entries

example :
    rename_media_files (FileSystem.dir [⟨"notes.txt", true, some ⟨none, some 0, 0⟩, false⟩]) true
      = (FileSystem.dir [⟨"notes.txt", true, some ⟨none, some 0, 0⟩, false⟩],
         RunResult.noMediaFiles, [Msg.infoNoMediaFiles]) := by decide

example :
    (rename_media_files (FileSystem.dir [⟨"a.jpg", true, some ⟨none, none, 0⟩, false⟩]) false).2.1
      = RunResult.summary 1 1 0 0 := by decide

example :
    (rename_media_files (FileSystem.dir [⟨"a.jpg", true, some ⟨none, none, 0⟩, false⟩]) true).2.1
      = RunResult.summary 1 0 0 0 := by decide

/-! ### Helper lemmas about one loop iteration and the fold -/

lemma processOne_dry_entries (st : LoopState) (f : String) :
    (processOne true st f).entries = st.entries := by
  unfold processOne
  by_cases h1 : already_has_date_prefix f = true
  · simp [h1]
  · simp only [Bool.not_eq_true] at h1
    simp only [h1, Bool.false_eq_true, if_false]
    cases hd : get_file_creation_date ((lookupEntry st.entries f).bind Entry.stat) with
    | none => rfl
    | some t =>
      by_cases h2 : st.entries.any (fun e => e.name = format_date t ++ " " ++ f) = true
      · simp [h2]
      · simp only [Bool.not_eq_true] at h2
        simp [h2]

lemma foldl_dry_entries (l : List String) (st : LoopState) :
    (l.foldl (processOne true) st).entries = st.entries := by
  induction l generalizing st with
  | nil => rfl
  | cons f rest ih =>
    rw [List.foldl_cons, ih, processOne_dry_entries]

lemma mem_renameEntry_of_ne {e : Entry} {es : List Entry} {old new : String}
    (hne : e.name ≠ old) (he : e ∈ es) : e ∈ renameEntry es old new := by
  unfold renameEntry
  have : (fun x : Entry => if x.name = old then { x with name := new } else x) e = e := by
    simp [hne]
  rw [← this]
  exact List.mem_map_of_mem _ he

lemma processOne_preserves_mem {e : Entry} (dry : Bool) (st : LoopState) (f : String)
    (hne : already_has_date_prefix f = false → e.name ≠ f)
    (he : e ∈ st.entries) : e ∈ (processOne dry st f).entries := by
  unfold processOne
  by_cases h1 : already_has_date_prefix f = true
  · simpa [h1] using he
  · simp only [Bool.not_eq_true] at h1
    simp only [h1, Bool.false_eq_true, if_false]
    cases hd : get_file_creation_date ((lookupEntry st.entries f).bind Entry.stat) with
    | none => exact he
    | some t =>
      by_cases h2 : st.entries.any (fun x => x.name = format_date t ++ " " ++ f) = true
      · simpa [h2] using he
      · simp only [Bool.not_eq_true] at h2
        by_cases hdry : dry = true
        · simpa [h2, hdry] using he
        · simp only [Bool.not_eq_true] at hdry
          by_cases h3 : renameRaises st.entries f = true
          · simpa [h2, hdry, h3] using he
          · simp only [Bool.not_eq_true] at h3
            simp only [h2, h3, hdry, Bool.false_eq_true, if_false]
            exact mem_renameEntry_of_ne (hne h1) he

lemma foldl_preserves_mem {e : Entry} (dry : Bool) (l : List String)
    (hl : ∀ f ∈ l, already_has_date_prefix f = false → e.name ≠ f) :
    ∀ st : LoopState, e ∈ st.entries → e ∈ (l.foldl (processOne dry) st).entries := by
  induction l with
  | nil => intro st he; exact he
  | cons f rest ih =>
    intro st he
    rw [List.foldl_cons]
    exact ih (fun g hg => hl g (List.mem_cons_of_mem _ hg)) _
      (processOne_preserves_mem dry st f (hl f (List.mem_cons_self _ _)) he)

/-- Total of the three counters. -/
def sumCounts (c : RunCounts) : Nat :=
  c.renamed + c.skipped + c.errors

lemma processOne_counts_cases (dry : Bool) (st : LoopState) (f : String) :
    (dry = true ∧ (processOne dry st f).counts = st.counts) ∨
    (processOne dry st f).counts = { st.counts with renamed := st.counts.renamed + 1 } ∨
    (processOne dry st f).counts = { st.counts with skipped := st.counts.skipped + 1 } ∨
    (processOne dry st f).counts = { st.counts with errors := st.counts.errors + 1 } := by
  unfold processOne
  by_cases h1 : already_has_date_prefix f = true
  · simp [h1]
  · simp only [Bool.not_eq_true] at h1
    simp only [h1, Bool.false_eq_true, if_false]
    cases hd : get_file_creation_date ((lookupEntry st.entries f).bind Entry.stat) with
    | none => simp
    | some t =>
      by_cases h2 : st.entries.any (fun x => x.name = format_date t ++ " " ++ f) = true
      · simp [h2]
      · simp only [Bool.not_eq_true] at h2
        by_cases hdry : dry = true
        · simp [h2, hdry]
        · simp only [Bool.not_eq_true] at hdry
          by_cases h3 : renameRaises st.entries f = true
          · simp [h2, hdry, h3]
          · simp only [Bool.not_eq_true] at h3
            simp [h2, hdry, h3]

lemma processOne_sum_false (st : LoopState) (f : String) :
    sumCounts (processOne false st f).counts = sumCounts st.counts + 1 := by
  rcases processOne_counts_cases false st f with ⟨h, _⟩ | h | h | h
  · exact absurd h (by simp)
  all_goals (rw [h]; simp [sumCounts]; try omega)

lemma processOne_sum_le (dry : Bool) (st : LoopState) (f : String) :
    sumCounts (processOne dry st f).counts ≤ sumCounts st.counts + 1 := by
  rcases processOne_counts_cases dry st f with ⟨_, h⟩ | h | h | h
  all_goals (rw [h]; simp [sumCounts]; try omega)

lemma foldl_sum_false (l : List String) (st : LoopState) :
    sumCounts ((l.foldl (processOne false) st).counts) = sumCounts st.counts + l.length := by
  induction l generalizing st with
  | nil => rfl
  | cons f rest ih =>
    rw [List.foldl_cons, ih, processOne_sum_false]
    simp [Nat.add_assoc, Nat.add_comm 1]

lemma foldl_sum_le (dry : Bool) (l : List String) (st : LoopState) :
    sumCounts ((l.foldl (processOne dry) st).counts) ≤ sumCounts st.counts + l.length := by
  induction l generalizing st with
  | nil => simp
  | cons f rest ih =>
    rw [List.foldl_cons]
    calc sumCounts ((rest.foldl (processOne dry) (processOne dry st f)).counts)
        ≤ sumCounts (processOne dry st f).counts + rest.length := ih _
      _ ≤ sumCounts st.counts + 1 + rest.length := by
          have := processOne_sum_le dry st f; omega
      _ = sumCounts st.counts + (f :: rest).length := by simp; omega

lemma processOne_skip (dry : Bool) (st : LoopState) (f : String)
    (h : already_has_date_prefix f = true) :
    processOne dry st f =
      { st with counts := { st.counts with skipped := st.counts.skipped + 1 },
                out := st.out ++ [Msg.skipLine f] } := by
  unfold processOne
  simp [h]

lemma processOne_errDate (dry : Bool) (st : LoopState) (f : String)
    (h1 : already_has_date_prefix f = false)
    (h2 : get_file_creation_date ((lookupEntry st.entries f).bind Entry.stat) = none) :
    processOne dry st f =
      { st with counts := { st.counts with errors := st.counts.errors + 1 },
                out := st.out ++ [Msg.errDate f] } := by
  unfold processOne
  simp [h1, h2]

lemma processOne_collision (dry : Bool) (st : LoopState) (f : String) (t : Int)
    (h1 : already_has_date_prefix f = false)
    (h2 : get_file_creation_date ((lookupEntry st.entries f).bind Entry.stat) = some t)
    (h3 : st.entries.any (fun x => x.name = format_date t ++ " " ++ f) = true) :
    processOne dry st f =
      { st with counts := { st.counts with errors := st.counts.errors + 1 },
                out := st.out ++ [Msg.errExists (format_date t ++ " " ++ f) f] } := by
  unfold processOne
  simp [h1, h2, h3]

lemma processOne_renameFail (st : LoopState) (f : String) (t : Int)
    (h1 : already_has_date_prefix f = false)
    (h2 : get_file_creation_date ((lookupEntry st.entries f).bind Entry.stat) = some t)
    (h3 : st.entries.any (fun x => x.name = format_date t ++ " " ++ f) = false)
    (h4 : renameRaises st.entries f = true) :
    processOne false st f =
      { st with counts := { st.counts with errors := st.counts.errors + 1 },
                out := st.out ++ [Msg.errRenameFailed f] } := by
  unfold processOne
  simp [h1, h2, h3, h4]

lemma run_summary_facts (entries : List Entry) (dry : Bool) (t r s e : Nat)
    (h : (rename_media_files (FileSystem.dir entries) dry).2.1 = RunResult.summary t r s e) :
    r + s + e ≤ t ∧ (dry = false → r + s + e = t) := by
  unfold rename_media_files at h
  by_cases h1 : (listingOf entries).isEmpty = true
  · simp [h1] at h
  · simp only [Bool.not_eq_true] at h1
    by_cases h2 : ((listingOf entries).filter is_media_file).isEmpty = true
    · simp [h1, h2] at h
    · simp only [Bool.not_eq_true] at h2
      simp only [h1, h2, Bool.false_eq_true, if_false, RunResult.summary.injEq] at h
      obtain ⟨ht, hr, hs, he⟩ := h
      subst ht hr hs he
      constructor
      · have := foldl_sum_le dry ((listingOf entries).filter is_media_file)
          ⟨entries, ⟨0, 0, 0⟩, [Msg.infoFound ((listingOf entries).filter is_media_file).length]⟩
        simpa [sumCounts] using this
      · intro hdry
        subst hdry
        have := foldl_sum_false ((listingOf entries).filter is_media_file)
          ⟨entries, ⟨0, 0, 0⟩, [Msg.infoFound ((listingOf entries).filter is_media_file).length]⟩
        simpa [sumCounts] using this

/-! ### Claim theorems -/

/-- C1: for every file whose metadata is readable,
`get_file_creation_date` returns the earlier of the creation-like
timestamp (birth time if available, else the change/creation time
field, else the modification time) and the modification timestamp, so
the formatted date prefix equals the calendar date of
min(creation, modification). -/
theorem c1_effective_date_is_min (s : FileStat) :
    ∃ t : Int, get_file_creation_date (some s) = some t ∧
      t ≤ creation_time_of s ∧ t ≤ s.st_mtime ∧
      (t = creation_time_of s ∨ t = s.st_mtime) ∧
      format_date t = format_date (min (creation_time_of s) s.st_mtime) :=
  ⟨min (creation_time_of s) s.st_mtime, rfl, min_le_left _ _, min_le_right _ _,
    min_choice _ _, rfl⟩

/-- C2: a dry run performs no file-system mutation: the file system
after `rename_media_files` with `dry_run = true` is identical to the
one before, for every input. -/
theorem c2_dry_run_no_mutation (fs : FileSystem) :
    (rename_media_files fs true).1 = fs := by
  cases fs with
  | notADir => rfl
  | dir entries =>
    unfold rename_media_files
    by_cases h1 : (listingOf entries).isEmpty = true
    · simp [h1]
    · simp only [Bool.not_eq_true] at h1
      by_cases h2 : ((listingOf entries).filter is_media_file).isEmpty = true
      · simp [h1, h2]
      · simp only [Bool.not_eq_true] at h2
        simp [h1, h2, foldl_dry_entries]

/-- C3: a media file whose name already carries a date prefix is never
renamed: it survives any run unchanged, and its loop iteration only
increments the skipped counter and prints the skip line, leaving the
directory untouched — which is what makes a second run idempotent on
already-prefixed names. -/
theorem c3_date_prefixed_never_renamed (dry : Bool) (entries : List Entry) (e : Entry)
    (st : LoopState) (he : e ∈ entries) (hp : already_has_date_prefix e.name = true) :
    e ∈ dirEntries (rename_media_files (FileSystem.dir entries) dry).1 ∧
    processOne dry st e.name =
      { st with counts := { st.counts with skipped := st.counts.skipped + 1 },
                out := st.out ++ [Msg.skipLine e.name] } := by
  constructor
  · unfold rename_media_files
    by_cases h1 : (listingOf entries).isEmpty = true
    · simpa [h1, dirEntries] using he
    · simp only [Bool.not_eq_true] at h1
      by_cases h2 : ((listingOf entries).filter is_media_file).isEmpty = true
      · simpa [h1, h2, dirEntries] using he
      · simp only [Bool.not_eq_true] at h2
        simp only [h1, h2, Bool.false_eq_true, if_false, dirEntries]
        exact foldl_preserves_mem dry _
          (fun f _ hpre heq => by rw [heq] at hp; rw [hp] at hpre; exact Bool.noConfusion hpre)
          _ he
  · exact processOne_skip dry st e.name hp

/-- C3 witness: the already-prefixed file `2022-01-01 video.mp4`
survives a real run over a concrete directory, and its iteration only
increments the skipped counter. -/
theorem c3_witness :
    (⟨"2022-01-01 video.mp4", true, some ⟨none, none, 0⟩, false⟩ : Entry) ∈
      dirEntries (rename_media_files
        (FileSystem.dir [⟨"2022-01-01 video.mp4", true, some ⟨none, none, 0⟩, false⟩]) false).1 ∧
    processOne false ⟨[⟨"2022-01-01 video.mp4", true, some ⟨none, none, 0⟩, false⟩], ⟨0, 0, 0⟩, []⟩
        "2022-01-01 video.mp4" =
      { entries := [⟨"2022-01-01 video.mp4", true, some ⟨none, none, 0⟩, false⟩],
        counts := ⟨0, 1, 0⟩,
        out := [Msg.skipLine "2022-01-01 video.mp4"] } :=
  c3_date_prefixed_never_renamed false
    [⟨"2022-01-01 video.mp4", true, some ⟨none, none, 0⟩, false⟩]
    ⟨"2022-01-01 video.mp4", true, some ⟨none, none, 0⟩, false⟩
    ⟨[⟨"2022-01-01 video.mp4", true, some ⟨none, none, 0⟩, false⟩], ⟨0, 0, 0⟩, []⟩
    (by decide) (by decide)

/-- C4: when the candidate new name `{date} {filename}` already exists
in the directory, the loop iteration increments the errors counter,
prints the collision line, and changes nothing else — in particular the
source file keeps its name and no disambiguating suffix is appended. -/
theorem c4_collision_counts_error (dry : Bool) (st : LoopState) (f : String) (t : Int)
    (h1 : already_has_date_prefix f = false)
    (h2 : get_file_creation_date ((lookupEntry st.entries f).bind Entry.stat) = some t)
    (h3 : st.entries.any (fun x => x.name = format_date t ++ " " ++ f) = true) :
    processOne dry st f =
      { st with counts := { st.counts with errors := st.counts.errors + 1 },
                out := st.out ++ [Msg.errExists (format_date t ++ " " ++ f) f] } :=
  processOne_collision dry st f t h1 h2 h3

/-- C4 witness: `a.png` with effective timestamp 0 collides with an
existing `1970-01-01 a.png`; the iteration counts one error and leaves
both entries untouched. -/
theorem c4_witness :
    processOne false
      ⟨[⟨"a.png", true, some ⟨none, none, 0⟩, false⟩,
        ⟨"1970-01-01 a.png", true, some ⟨none, none, 0⟩, false⟩], ⟨0, 0, 0⟩, []⟩ "a.png" =
      { entries := [⟨"a.png", true, some ⟨none, none, 0⟩, false⟩,
                    ⟨"1970-01-01 a.png", true, some ⟨none, none, 0⟩, false⟩],
        counts := ⟨0, 0, 1⟩,
        out := [Msg.errExists "1970-01-01 a.png" "a.png"] } := by
  have h := c4_collision_counts_error false
    ⟨[⟨"a.png", true, some ⟨none, none, 0⟩, false⟩,
      ⟨"1970-01-01 a.png", true, some ⟨none, none, 0⟩, false⟩], ⟨0, 0, 0⟩, []⟩
    "a.png" 0 (by decide) (by decide) (by decide)
  simpa using h

/-- C5: on a path that is not a directory, the run reports the
directory error and aborts with no enumeration and no mutation: the
file system is returned unchanged and the only output is the error
line. -/
theorem c5_not_a_directory_aborts (dry : Bool) :
    rename_media_files FileSystem.notADir dry =
      (FileSystem.notADir, RunResult.dirNotFound, [Msg.errorDirMissing]) :=
  rfl

/-- C6 counterexample: on a directory holding only `notes.txt`, the run
returns the no-media-files early result, not a summary with all counts
zero — the source returns before its summary block is ever reached. -/
theorem c6_counterexample :
    (rename_media_files
      (FileSystem.dir [⟨"notes.txt", true, some ⟨none, some 0, 0⟩, false⟩]) true).2.1
        = RunResult.noMediaFiles ∧
    (rename_media_files
      (FileSystem.dir [⟨"notes.txt", true, some ⟨none, some 0, 0⟩, false⟩]) true).2.1
        ≠ RunResult.summary 0 0 0 0 := by
  decide

/-- C6 (amended): when the directory holds at least one file but no
media file, the run emits only the `No media files found` informational
message and returns early with the directory unchanged; no summary
block is produced and no counter is ever incremented. -/
theorem c6_no_media_early_return (entries : List Entry) (dry : Bool)
    (hfiles : (listingOf entries).isEmpty = false)
    (hmedia : ((listingOf entries).filter is_media_file).isEmpty = true) :
    rename_media_files (FileSystem.dir entries) dry =
      (FileSystem.dir entries, RunResult.noMediaFiles, [Msg.infoNoMediaFiles]) := by
  unfold rename_media_files
  simp [hfiles, hmedia]

/-- C6 witness: the amended statement evaluated on the `notes.txt`
directory. -/
theorem c6_witness :
    rename_media_files
      (FileSystem.dir [⟨"notes.txt", true, some ⟨none, some 0, 0⟩, false⟩]) true =
      (FileSystem.dir [⟨"notes.txt", true, some ⟨none, some 0, 0⟩, false⟩],
       RunResult.noMediaFiles, [Msg.infoNoMediaFiles]) :=
  c6_no_media_early_return [⟨"notes.txt", true, some ⟨none, some 0, 0⟩, false⟩] true
    (by decide) (by decide)

/-- C7: every per-file failure — unreadable metadata, target-name
collision, failing rename call — is absorbed at the file boundary: the
iteration increments only the errors counter, prints one error line,
touches no entry, and the fold then continues with the remaining files;
when at least one media file is present the run always reaches its
summary, so no per-file error aborts the batch. -/
theorem c7_per_file_errors_recovered (dry : Bool) (st : LoopState) (f : String)
    (t : Int) (rest : List String) (entries : List Entry) :
    ( already_has_date_prefix f = false →
      get_file_creation_date ((lookupEntry st.entries f).bind Entry.stat) = none →
      processOne dry st f =
        { st with counts := { st.counts with errors := st.counts.errors + 1 },
                  out := st.out ++ [Msg.errDate f] }) ∧
    ( already_has_date_prefix f = false →
      get_file_creation_date ((lookupEntry st.entries f).bind Entry.stat) = some t →
      st.entries.any (fun x => x.name = format_date t ++ " " ++ f) = true →
      processOne dry st f =
        { st with counts := { st.counts with errors := st.counts.errors + 1 },
                  out := st.out ++ [Msg.errExists (format_date t ++ " " ++ f) f] }) ∧
    ( already_has_date_prefix f = false →
      get_file_creation_date ((lookupEntry st.entries f).bind Entry.stat) = some t →
      st.entries.any (fun x => x.name = format_date t ++ " " ++ f) = false →
      renameRaises st.entries f = true →
      processOne false st f =
        { st with counts := { st.counts with errors := st.counts.errors + 1 },
                  out := st.out ++ [Msg.errRenameFailed f] }) ∧
    ((f :: rest).foldl (processOne dry) st = rest.foldl (processOne dry) (processOne dry st f)) ∧
    (((listingOf entries).filter is_media_file).isEmpty = false →
      ∃ r s e, (rename_media_files (FileSystem.dir entries) dry).2.1 =
        RunResult.summary ((listingOf entries).filter is_media_file).length r s e) := by
  refine ⟨fun h1 h2 => processOne_errDate dry st f h1 h2,
          fun h1 h2 h3 => processOne_collision dry st f t h1 h2 h3,
          fun h1 h2 h3 h4 => processOne_renameFail st f t h1 h2 h3 h4,
          rfl, ?_⟩
  intro hmedia
  unfold rename_media_files
  by_cases h1 : (listingOf entries).isEmpty = true
  · exfalso
    have hnil : listingOf entries = [] := List.isEmpty_iff.mp h1
    rw [hnil] at hmedia
    simp at hmedia
  · simp only [Bool.not_eq_true] at h1
    simp only [h1, hmedia, Bool.false_eq_true, if_false]
    exact ⟨_, _, _, rfl⟩

/-- C7 witness: the metadata-failure, rename-failure and reach-summary
conjuncts evaluated on concrete directories. -/
theorem c7_witness :
    (processOne true ⟨[⟨"bad.jpg", true, none, false⟩], ⟨0, 0, 0⟩, []⟩ "bad.jpg" =
      { entries := [⟨"bad.jpg", true, none, false⟩], counts := ⟨0, 0, 1⟩,
        out := [Msg.errDate "bad.jpg"] }) ∧
    (processOne false ⟨[⟨"lock.jpg", true, some ⟨none, none, 0⟩, true⟩], ⟨0, 0, 0⟩, []⟩
        "lock.jpg" =
      { entries := [⟨"lock.jpg", true, some ⟨none, none, 0⟩, true⟩], counts := ⟨0, 0, 1⟩,
        out := [Msg.errRenameFailed "lock.jpg"] }) ∧
    (∃ r s e, (rename_media_files
        (FileSystem.dir [⟨"a.jpg", true, some ⟨none, none, 0⟩, false⟩]) false).2.1 =
      RunResult.summary 1 r s e) := by
  refine ⟨?_, ?_, ?_⟩
  · have h := (c7_per_file_errors_recovered true
      ⟨[⟨"bad.jpg", true, none, false⟩], ⟨0, 0, 0⟩, []⟩ "bad.jpg" 0 [] []).1
      (by decide) (by decide)
    simpa using h
  · have h := (c7_per_file_errors_recovered false
      ⟨[⟨"lock.jpg", true, some ⟨none, none, 0⟩, true⟩], ⟨0, 0, 0⟩, []⟩ "lock.jpg" 0 [] []).2.2.1
      (by decide) (by decide) (by decide) (by decide)
    simpa using h
  · have h := (c7_per_file_errors_recovered false ⟨[], ⟨0, 0, 0⟩, []⟩ "x" 0 []
      [⟨"a.jpg", true, some ⟨none, none, 0⟩, false⟩]).2.2.2.2 (by decide)
    obtain ⟨r, s, e, hh⟩ := h
    have hlen : ((listingOf [⟨"a.jpg", true, some ⟨none, none, 0⟩, false⟩]).filter
        is_media_file).length = 1 := by decide
    rw [hlen] at hh
    exact ⟨r, s, e, hh⟩

/-- C8: a file whose extension is not in the recognized media set is
excluded by the media filter and survives any run — dry or real —
unchanged. -/
theorem c8_non_media_never_touched (dry : Bool) (entries : List Entry) (e : Entry)
    (he : e ∈ entries) (hm : is_media_file e.name = false) :
    e ∈ dirEntries (rename_media_files (FileSystem.dir entries) dry).1 ∧
    e.name ∉ (listingOf entries).filter is_media_file := by
  constructor
  · unfold rename_media_files
    by_cases h1 : (listingOf entries).isEmpty = true
    · simpa [h1, dirEntries] using he
    · simp only [Bool.not_eq_true] at h1
      by_cases h2 : ((listingOf entries).filter is_media_file).isEmpty = true
      · simpa [h1, h2, dirEntries] using he
      · simp only [Bool.not_eq_true] at h2
        simp only [h1, h2, Bool.false_eq_true, if_false, dirEntries]
        refine foldl_preserves_mem dry _ (fun f hf _ heq => ?_) _ he
        have hfm : is_media_file f = true := (List.mem_filter.mp hf).2
        rw [← heq] at hfm
        rw [hm] at hfm
        exact Bool.noConfusion hfm
  · intro hmem
    have hfm := (List.mem_filter.mp hmem).2
    rw [hm] at hfm
    exact Bool.noConfusion hfm

/-- C8 witness: `notes.txt` survives a real run over a directory that
also holds a media file, and is excluded by the media filter. -/
theorem c8_witness :
    (⟨"notes.txt", true, some ⟨none, none, 0⟩, false⟩ : Entry) ∈
      dirEntries (rename_media_files
        (FileSystem.dir [⟨"notes.txt", true, some ⟨none, none, 0⟩, false⟩,
                         ⟨"a.jpg", true, some ⟨none, none, 0⟩, false⟩]) false).1 ∧
    "notes.txt" ∉ (listingOf [⟨"notes.txt", true, some ⟨none, none, 0⟩, false⟩,
                              ⟨"a.jpg", true, some ⟨none, none, 0⟩, false⟩]).filter
      is_media_file :=
  c8_non_media_never_touched false
    [⟨"notes.txt", true, some ⟨none, none, 0⟩, false⟩,
     ⟨"a.jpg", true, some ⟨none, none, 0⟩, false⟩]
    ⟨"notes.txt", true, some ⟨none, none, 0⟩, false⟩
    (by decide) (by decide)

/-- C9: `is_media_file` lower-cases the filename's extension and holds
exactly when that extension lies in the fixed 27-element photo/video
catalog. -/
theorem c9_media_catalog (f : String) :
    is_media_file f = true ↔
      strLower (pySuffix f) ∈
        ([".jpg", ".jpeg", ".png", ".gif", ".bmp", ".tiff", ".tif",
          ".webp", ".svg", ".raw", ".cr2", ".nef", ".arw", ".dng",
          ".mp4", ".avi", ".mov", ".wmv", ".flv", ".webm", ".mkv",
          ".m4v", ".3gp", ".mpg", ".mpeg", ".m2v", ".mts"] : List String) := by
  simp [is_media_file, media_extensions]

/-- C10: each loop iteration increments at most one counter (none only
under dry run, on a file that would be renamed); a real run's counters
add up exactly to the number of media files, a dry run's add up to at
most that number, and the concrete dry run over one renameable file
shows the sum can be strictly smaller. -/
theorem c10_counter_accounting (dry : Bool) (st : LoopState) (f : String)
    (entries : List Entry) (t r s e : Nat) :
    ((dry = true ∧ (processOne dry st f).counts = st.counts) ∨
      (processOne dry st f).counts = { st.counts with renamed := st.counts.renamed + 1 } ∨
      (processOne dry st f).counts = { st.counts with skipped := st.counts.skipped + 1 } ∨
      (processOne dry st f).counts = { st.counts with errors := st.counts.errors + 1 }) ∧
    (sumCounts (processOne false st f).counts = sumCounts st.counts + 1) ∧
    ((rename_media_files (FileSystem.dir entries) false).2.1 = RunResult.summary t r s e →
      r + s + e = t) ∧
    ((rename_media_files (FileSystem.dir entries) dry).2.1 = RunResult.summary t r s e →
      r + s + e ≤ t) ∧
    ((rename_media_files (FileSystem.dir
        [⟨"a.jpg", true, some ⟨none, none, 0⟩, false⟩]) true).2.1 =
      RunResult.summary 1 0 0 0 ∧ 0 + 0 + 0 < 1) :=
  ⟨processOne_counts_cases dry st f,
   processOne_sum_false st f,
   fun h => (run_summary_facts entries false t r s e h).2 rfl,
   fun h => (run_summary_facts entries dry t r s e h).1,
   by decide, by decide⟩

/-- C10 witness: the accounting conjuncts evaluated on a concrete
one-media-file directory, real run and dry run. -/
theorem c10_witness :
    ((rename_media_files (FileSystem.dir
        [⟨"a.jpg", true, some ⟨none, none, 0⟩, false⟩]) false).2.1 =
      RunResult.summary 1 1 0 0 ∧ 1 + 0 + 0 = 1) ∧
    ((rename_media_files (FileSystem.dir
        [⟨"a.jpg", true, some ⟨none, none, 0⟩, false⟩]) true).2.1 =
      RunResult.summary 1 0 0 0 ∧ 0 + 0 + 0 ≤ 1) := by
  constructor
  · exact ⟨by decide, (c10_counter_accounting false ⟨[], ⟨0, 0, 0⟩, []⟩ "x"
      [⟨"a.jpg", true, some ⟨none, none, 0⟩, false⟩] 1 1 0 0).2.2.1 (by decide)⟩
  · exact ⟨by decide, (c10_counter_accounting true ⟨[], ⟨0, 0, 0⟩, []⟩ "x"
      [⟨"a.jpg", true, some ⟨none, none, 0⟩, false⟩] 1 0 0 0).2.2.2.1 (by decide)⟩
